import Mathlib

/-!
Verification of the `AttachStep` component of react-native-spotlight-tour
(src/package/src/lib/components/attach-step/AttachStep.component.tsx),
as a shallow embedding in Lean 4.

The embedding models:
  * `checkIndex`, the pure step-membership check;
  * the element tree produced by the `AttachStep` render function,
    including React's `cloneElement` merge semantics and JavaScript
    object-spread semantics for props and styles;
  * the measurement-trigger effect (the `useEffect` body), as a function
    from the context state and a rendering-engine oracle to the list of
    observable actions (measure requests and `changeSpot` calls);
  * the effect dependency key `index.toString()`, with JavaScript
    number/array string conversion.
-/

namespace AttachStepModel

/-- Property values carried in React props and style objects. -/
inductive Val where
  | str : String → Val
  | bool : Bool → Val
  | num : Int → Val
deriving DecidableEq, Repr

/-- A JavaScript object, as an association list of keyed values.
Lookup returns the first binding of a key; the spread operation below
keeps the later object's bindings on conflicting keys, matching the
semantics of the object-spread syntax in the source. -/
abbrev JsObj := List (String × Val)

/-- Lookup of a key in a JavaScript object. -/
def lookupObj (k : String) : JsObj → Option Val
  | [] => none
  | (k', v) :: rest => if k' = k then some v else lookupObj k rest

/-- The keys of a JavaScript object. -/
def keysObj (o : JsObj) : List String :=
  o.map Prod.fst

/-- JavaScript object spread: in an object literal spreading `a` then `b`,
bindings of `b` override bindings of `a` on conflicting keys. -/
def spreadObj (a b : JsObj) : JsObj :=
  a.filter (fun p => !(keysObj b).contains p.1) ++ b

/-- A React element: its type tag (`isFn` is true when `typeof type`
is a function, i.e. a composite component), a name for the type, the
`style` prop when present, the ref attached to the element, the remaining
props, and the children. -/
inductive Element : Type where
  | mk : (isFn : Bool) → (name : String) → (style : Option JsObj) →
      (ref : Option Nat) → (rest : JsObj) → (children : List Element) → Element

/-- Whether the element's type is a function (composite component). -/
def Element.isFn : Element → Bool
  | .mk f _ _ _ _ _ => f

/-- The name of the element's type. -/
def Element.name : Element → String
  | .mk _ n _ _ _ _ => n

/-- The `style` prop of the element, when present. -/
def Element.style : Element → Option JsObj
  | .mk _ _ s _ _ _ => s

/-- The ref bound to the element, when present. -/
def Element.ref : Element → Option Nat
  | .mk _ _ _ r _ _ => r

/-- The props of the element other than `style` and the ref. -/
def Element.rest : Element → JsObj
  | .mk _ _ _ _ p _ => p

/-- The children of the element. -/
def Element.children : Element → List Element
  | .mk _ _ _ _ _ c => c

/-- The element with its ref replaced. -/
def Element.withRef (r : Option Nat) : Element → Element
  | .mk f n s _ p c => .mk f n s r p c

/-- A config object passed to `cloneElement`: the `style` and ref entries
are present only when the corresponding key is present in the config
object of the source call site. -/
structure CloneConfig where
  style : Option JsObj
  ref : Option Nat
  rest : JsObj

/-- React's `cloneElement(element, config, ...children)`: the result keeps
the element's type and starts from the original props, with the config's
bindings merged over them (config overrides on conflicting keys; keys
absent from the config keep their original values); the ref is taken from
the config when present, otherwise kept; the explicitly passed children
replace the original children. -/
def cloneElement (el : Element) (config : CloneConfig)
    (newChildren : List Element) : Element :=
  match el with
  | .mk f n s r p _ =>
    .mk f n
      (match config.style with
        | some cs => some cs
        | none => s)
      (match config.ref with
        | some cr => some cr
        | none => r)
      (spreadObj p config.rest)
      newChildren

/-- The `index` prop of `AttachStep`: a single number or an array of
numbers. -/
inductive IndexSpec where
  | single : Int → IndexSpec
  | arr : List Int → IndexSpec
deriving DecidableEq, Repr

/-- The `checkIndex` helper of the source: returns false when `current`
is undefined; otherwise tests membership when `index` is an array and
exact equality when it is a single number. -/
def checkIndex (index : IndexSpec) (current : Option Int) : Bool :=
  match current with
  | none => false
  | some c =>
    match index with
    | .arr xs => xs.contains c
    | .single i => c == i

/-- The base `alignSelf` value chosen by the `fill` prop in the wrapper
style of the composite branch. -/
def alignSelfBase (fill : Bool) : Val :=
  .str (if fill then "stretch" else "flex-start")

/-- The render function of `AttachStep`, branching on the child's element
kind. For a composite child it returns a `View` wrapper carrying the ref,
the test identifier, `collapsable := false`, `focusable := false`, and the
merge of the base style with the child's style, with the child re-rendered
beneath it via `cloneElement` applied to the props rest after destructuring
`style` off. For any other child it returns a clone of the child with the
ref merged over its props. -/
def AttachStep (children : Element) (fill : Bool) (childRef : Nat) :
    Element :=
  if children.isFn then
    Element.mk false "View"
      (some (spreadObj [("alignSelf", alignSelfBase fill)]
        (children.style.getD [])))
      (some childRef)
      [("testID", Val.str "attach-wrapper-view"),
       ("collapsable", Val.bool false),
       ("focusable", Val.bool false)]
      [cloneElement children ⟨none, none, children.rest⟩ children.children]
  else
    cloneElement children ⟨children.style, some childRef, children.rest⟩
      children.children

/-- A geometry snapshot, constructed by the effect callback in the field
order of the source object literal. -/
structure Spot where
  height : Int
  width : Int
  x : Int
  y : Int
deriving DecidableEq, Repr

/-- Observable actions of the measurement effect: a geometry request
against a resolved ref, and a `changeSpot` call on the tour context. -/
inductive Action where
  | measureRequest : Nat → Action
  | changeSpot : Spot → Action
deriving DecidableEq, Repr

/-- The body of the `useEffect` of `AttachStep`: when `checkIndex` holds,
it issues `measureInWindow` against the current value of the child ref via
optional chaining (skipping silently when the ref is null), and the
delivered coordinates are forwarded to `changeSpot` as a snapshot. The
rendering engine is an oracle giving the `(x, y, width, height)` that
`measureInWindow` delivers for a ref. -/
def attachStepEffect (index : IndexSpec) (current : Option Int)
    (refCurrent : Option Nat) (engine : Nat → Int × Int × Int × Int) :
    List Action :=
  if checkIndex index current then
    match refCurrent with
    | none => []
    | some r =>
      match engine r with
      | (x, y, width, height) =>
        [Action.measureRequest r, Action.changeSpot ⟨height, width, x, y⟩]
  else
    []

/-- The `changeSpot` calls among a list of actions. -/
def spotCalls (as : List Action) : List Spot :=
  as.filterMap (fun a =>
    match a with
    | .changeSpot s => some s
    | _ => none)

/-- JavaScript string conversion of the `index` prop, as used in the
effect dependency array: a number converts to its decimal string, an
array joins the converted elements with commas. -/
def indexToString : IndexSpec → String
  | .single i => toString i
  | .arr xs => String.intercalate "," (xs.map (fun i => toString i))

/-- A key is absent from an object exactly when its lookup fails. -/
theorem lookupObj_eq_none_iff (k : String) (o : JsObj) :
    lookupObj k o = none ↔ k ∉ keysObj o := by
  induction o with
  | nil => simp [lookupObj, keysObj]
  | cons p rest ih =>
    obtain ⟨k', v⟩ := p
    by_cases h : k' = k
    · subst h
      simp [lookupObj, keysObj]
    · simp [lookupObj, keysObj, h, ih, Ne.symm h]

/-- Lookup distributes over list append, preferring the first list. -/
theorem lookupObj_append (k : String) (a b : JsObj) :
    lookupObj k (a ++ b) =
      match lookupObj k a with
      | some v => some v
      | none => lookupObj k b := by
  induction a with
  | nil => cases h : lookupObj k b <;> simp [lookupObj, h]
  | cons p rest ih =>
    obtain ⟨k', v'⟩ := p
    by_cases hk : k' = k
    · subst hk
      simp [lookupObj]
    · simp [lookupObj, hk, ih]

/-- Filtering with a predicate that keeps every binding of key `k` does
not change the lookup of `k`. -/
theorem lookupObj_filter_keep (k : String) (a : JsObj)
    (pred : String × Val → Bool) (hkeep : ∀ v, pred (k, v) = true) :
    lookupObj k (a.filter pred) = lookupObj k a := by
  induction a with
  | nil => rfl
  | cons p rest ih =>
    obtain ⟨k', v'⟩ := p
    by_cases hk : k' = k
    · subst hk
      simp [List.filter_cons, hkeep v', lookupObj, ih]
    · cases hp : pred (k', v') <;>
        simp [List.filter_cons, hp, lookupObj, hk, ih]

/-- Filtering with a predicate that drops every binding of key `k` makes
the lookup of `k` fail. -/
theorem lookupObj_filter_drop (k : String) (a : JsObj)
    (pred : String × Val → Bool) (hdrop : ∀ v, pred (k, v) = false) :
    lookupObj k (a.filter pred) = none := by
  induction a with
  | nil => rfl
  | cons p rest ih =>
    obtain ⟨k', v'⟩ := p
    by_cases hk : k' = k
    · subst hk
      simp [List.filter_cons, hdrop v', ih]
    · cases hp : pred (k', v') <;>
        simp [List.filter_cons, hp, lookupObj, hk, ih]

/-- Lookup in a spread: the later object's binding wins when present,
otherwise the earlier object's binding is used. -/
theorem lookupObj_spreadObj (k : String) (a b : JsObj) :
    lookupObj k (spreadObj a b) =
      match lookupObj k b with
      | some v => some v
      | none => lookupObj k a := by
  cases hb : lookupObj k b with
  | some v =>
    rw [spreadObj, lookupObj_append,
      lookupObj_filter_drop k a _ (fun w => by
        have hk : k ∈ keysObj b := by
          by_contra hk
          rw [(lookupObj_eq_none_iff k b).mpr hk] at hb
          cases hb
        simp [hk])]
    simp [hb]
  | none =>
    have hk : k ∉ keysObj b := (lookupObj_eq_none_iff k b).mp hb
    rw [spreadObj, lookupObj_append,
      lookupObj_filter_keep k a _ (fun w => by simp [hk])]
    cases ha : lookupObj k a <;> simp [hb]

/-- Spreading an object over itself gives back the same object. -/
theorem spreadObj_self (o : JsObj) : spreadObj o o = o := by
  have h : o.filter (fun p => !(keysObj o).contains p.1) = [] := by
    rw [List.filter_eq_nil_iff]
    intro p hp
    have hmem : p.1 ∈ keysObj o := List.mem_map_of_mem Prod.fst hp
    simp [hmem]
  rw [spreadObj, h, List.nil_append]

/-- C1: for every defined active step value, when the configured index is
an array the check returns true iff the active step is a member of the
array (and the result is invariant under permutation of the array), and
when the configured index is a single integer the check returns true iff
the active step equals it exactly. -/
theorem checkIndex_spec (a : Int) (S : List Int) (i : Int) :
    (checkIndex (.arr S) (some a) = true ↔ a ∈ S) ∧
    (∀ S' : List Int, S.Perm S' →
      checkIndex (.arr S) (some a) = checkIndex (.arr S') (some a)) ∧
    (checkIndex (.single i) (some a) = true ↔ a = i) := by
  refine ⟨by simp [checkIndex], ?_, by simp [checkIndex]⟩
  intro S' hperm
  simp only [checkIndex]
  rw [Bool.eq_iff_iff]
  simp [hperm.mem_iff]

theorem checkIndex_spec_witness :
    checkIndex (.arr [1, 2]) (some 1) = checkIndex (.arr [2, 1]) (some 1) :=
  (checkIndex_spec 1 [1, 2] 1).2.1 [2, 1] (by decide)

/-- C2: whenever the active step is undefined, `checkIndex` returns false
for every index specification, and the effect issues no measurement
request and no `changeSpot` call. -/
theorem checkIndex_undefined_no_measure (index : IndexSpec)
    (r : Option Nat) (engine : Nat → Int × Int × Int × Int) :
    checkIndex index none = false ∧
    attachStepEffect index none r engine = [] :=
  ⟨rfl, rfl⟩

/-- C6: whenever the check holds and the engine delivers coordinates
`(x, y, w, h)` for the resolved ref, the effect issues exactly one
measurement request and exactly one `changeSpot` call, whose snapshot
holds exactly those four values. -/
theorem effect_active_reports_once (index : IndexSpec)
    (current : Option Int) (r : Nat)
    (engine : Nat → Int × Int × Int × Int) (x y w h : Int)
    (hactive : checkIndex index current = true)
    (hengine : engine r = (x, y, w, h)) :
    attachStepEffect index current (some r) engine =
      [Action.measureRequest r, Action.changeSpot ⟨h, w, x, y⟩] ∧
    spotCalls (attachStepEffect index current (some r) engine) =
      [⟨h, w, x, y⟩] := by
  refine ⟨?_, ?_⟩ <;> simp [attachStepEffect, hactive, hengine, spotCalls]

theorem effect_active_reports_once_witness :
    attachStepEffect (.single 1) (some 1) (some 0)
        (fun _ => (10, 20, 100, 50)) =
      [Action.measureRequest 0, Action.changeSpot ⟨50, 100, 10, 20⟩] ∧
    spotCalls (attachStepEffect (.single 1) (some 1) (some 0)
        (fun _ => (10, 20, 100, 50))) = [⟨50, 100, 10, 20⟩] :=
  effect_active_reports_once (.single 1) (some 1) 0
    (fun _ => (10, 20, 100, 50)) 10 20 100 50 (by decide) rfl

/-- C7: whenever the membership check is false, the effect performs no
action at all: no measurement request is issued and `changeSpot` is never
called. -/
theorem effect_inactive_noop (index : IndexSpec) (current : Option Int)
    (r : Option Nat) (engine : Nat → Int × Int × Int × Int)
    (h : checkIndex index current = false) :
    attachStepEffect index current r engine = [] := by
  simp [attachStepEffect, h]

theorem effect_inactive_noop_witness :
    attachStepEffect (.arr [1, 2, 3]) (some 4) (some 0)
      (fun _ => (0, 0, 0, 0)) = [] :=
  effect_inactive_noop (.arr [1, 2, 3]) (some 4) (some 0)
    (fun _ => (0, 0, 0, 0)) (by decide)

/-- C8: when the check holds but the ref is unresolved (null), the effect
silently skips the geometry request: it returns normally with no actions,
so no request is issued and `changeSpot` is not called. -/
theorem effect_null_ref_skips (index : IndexSpec) (current : Option Int)
    (engine : Nat → Int × Int × Int × Int)
    (h : checkIndex index current = true) :
    attachStepEffect index current none engine = [] ∧
    spotCalls (attachStepEffect index current none engine) = [] := by
  refine ⟨?_, ?_⟩ <;> simp [attachStepEffect, h, spotCalls]

theorem effect_null_ref_skips_witness :
    attachStepEffect (.single 1) (some 1) none (fun _ => (0, 0, 0, 0)) = [] ∧
    spotCalls (attachStepEffect (.single 1) (some 1) none
      (fun _ => (0, 0, 0, 0))) = [] :=
  effect_null_ref_skips (.single 1) (some 1) (fun _ => (0, 0, 0, 0))
    (by decide)

/-- C9: the effect dependency key for the configured index is its
JavaScript string conversion, which is order-sensitive for arrays: the
specifications `[1, 2]` and `[2, 1]` have unequal keys although
`checkIndex` agrees on them for every active step value. -/
theorem indexKey_order_sensitive :
    indexToString (.arr [1, 2]) ≠ indexToString (.arr [2, 1]) ∧
    ∀ c : Option Int,
      checkIndex (.arr [1, 2]) c = checkIndex (.arr [2, 1]) c := by
  refine ⟨by decide, ?_⟩
  intro c
  cases c with
  | none => rfl
  | some a =>
    simp only [checkIndex]
    rw [Bool.eq_iff_iff]
    simp
    omega

/-- The primitive branch of `AttachStep` returns the child itself with
only its ref replaced by the component's ref. -/
theorem attachPrimitive (child : Element) (fill : Bool) (r : Nat)
    (h : child.isFn = false) :
    AttachStep child fill r = child.withRef (some r) := by
  cases child with
  | mk f n s r0 p c =>
    simp only [Element.isFn] at h
    subst h
    cases s <;>
      simp [AttachStep, Element.isFn, cloneElement, Element.withRef,
        Element.style, Element.rest, Element.children, spreadObj_self]

/-- A concrete primitive (non-function) child element used as a witness
input. -/
def textChild : Element :=
  .mk false "Text" (some [("color", .str "blue")]) none
    [("numberOfLines", .num 1)] []

/-- A concrete composite (function) child element carrying a style,
used as a counterexample input. -/
def styledChild : Element :=
  .mk true "StepContent" (some [("color", .str "red")]) none
    [("title", .str "hi")] []

/-- A concrete composite (function) child element whose style sets
`alignSelf`, used as a witness input. -/
def funChild : Element :=
  .mk true "MyComponent"
    (some [("color", .str "red"), ("alignSelf", .str "center")]) none
    [("title", .str "hi")] []

/-- C3 (failing input): for a composite child carrying a style, the
element re-rendered beneath the injected wrapper is the original child
unchanged, its `style` prop still present — `cloneElement` merges the
config over the original props, so destructuring `style` off before the
call does not strip it. -/
theorem composite_child_style_not_stripped :
    (AttachStep styledChild false 0).children = [styledChild] ∧
    styledChild.style = some [("color", Val.str "red")] :=
  ⟨rfl, rfl⟩

/-- C4: for a composite child, the injected wrapper carries the ref, the
stable test identifier, `collapsable := false` and `focusable := false`,
and its style is the spread of the base style (`alignSelf` of
`"flex-start"` when `fill` is false and `"stretch"` when true) under the
child's own style, so the child's binding wins on every conflicting key
and the base `alignSelf` shows through exactly when the child's style
does not set it. -/
theorem composite_wrapper_props (child : Element) (fill : Bool) (r : Nat)
    (h : child.isFn = true) :
    (AttachStep child fill r).ref = some r ∧
    lookupObj "testID" (AttachStep child fill r).rest =
      some (.str "attach-wrapper-view") ∧
    lookupObj "collapsable" (AttachStep child fill r).rest =
      some (.bool false) ∧
    lookupObj "focusable" (AttachStep child fill r).rest =
      some (.bool false) ∧
    (AttachStep child fill r).style =
      some (spreadObj
        [("alignSelf", .str (if fill then "stretch" else "flex-start"))]
        (child.style.getD [])) ∧
    (∀ k v, lookupObj k (child.style.getD []) = some v →
      lookupObj k ((AttachStep child fill r).style.getD []) = some v) ∧
    (lookupObj "alignSelf" (child.style.getD []) = none →
      lookupObj "alignSelf" ((AttachStep child fill r).style.getD []) =
        some (.str (if fill then "stretch" else "flex-start"))) := by
  have hw : AttachStep child fill r =
      Element.mk false "View"
        (some (spreadObj [("alignSelf", alignSelfBase fill)]
          (child.style.getD [])))
        (some r)
        [("testID", Val.str "attach-wrapper-view"),
         ("collapsable", Val.bool false),
         ("focusable", Val.bool false)]
        [cloneElement child ⟨none, none, child.rest⟩ child.children] := by
    simp [AttachStep, h]
  rw [hw]
  refine ⟨rfl, rfl, ?_, ?_, rfl, ?_, ?_⟩
  · simp [lookupObj]
  · simp [lookupObj]
  · intro k v hv
    show lookupObj k (spreadObj [("alignSelf", alignSelfBase fill)]
      (child.style.getD [])) = some v
    rw [lookupObj_spreadObj, hv]
  · intro hnone
    show lookupObj "alignSelf"
        (spreadObj [("alignSelf", alignSelfBase fill)]
          (child.style.getD [])) =
      some (.str (if fill then "stretch" else "flex-start"))
    rw [lookupObj_spreadObj, hnone]
    rfl

theorem composite_wrapper_props_witness :
    (AttachStep funChild false 5).ref = some 5 ∧
    lookupObj "alignSelf" ((AttachStep funChild false 5).style.getD []) =
      some (.str "center") :=
  ⟨(composite_wrapper_props funChild false 5 rfl).1,
    (composite_wrapper_props funChild false 5 rfl).2.2.2.2.2.1
      "alignSelf" (.str "center") rfl⟩

/-- C5: for a child whose type is not a function, `AttachStep` renders a
clone of the child with the ref merged in and nothing else altered — its
kind, name, style, other props and children are all unchanged, and no
wrapper node is introduced. -/
theorem primitive_clone_ref_only (child : Element) (fill : Bool) (r : Nat)
    (h : child.isFn = false) :
    AttachStep child fill r = child.withRef (some r) ∧
    (AttachStep child fill r).ref = some r ∧
    (AttachStep child fill r).isFn = child.isFn ∧
    (AttachStep child fill r).name = child.name ∧
    (AttachStep child fill r).style = child.style ∧
    (AttachStep child fill r).rest = child.rest ∧
    (AttachStep child fill r).children = child.children := by
  have he := attachPrimitive child fill r h
  rw [he]
  cases child with
  | mk f n s r0 p c =>
    simp [Element.withRef, Element.ref, Element.isFn, Element.name,
      Element.style, Element.rest, Element.children]

theorem primitive_clone_ref_only_witness :
    AttachStep textChild false 7 = textChild.withRef (some 7) ∧
    (AttachStep textChild false 7).children = textChild.children :=
  ⟨(primitive_clone_ref_only textChild false 7 rfl).1,
    (primitive_clone_ref_only textChild false 7 rfl).2.2.2.2.2.2⟩

/-- C10: for a child whose type is not a function, the rendered output of
`AttachStep` does not depend on the `fill` flag: the trees rendered with
`fill` true and `fill` false are equal. -/
theorem primitive_fill_irrelevant (child : Element) (r : Nat)
    (h : child.isFn = false) :
    AttachStep child true r = AttachStep child false r := by
  rw [attachPrimitive child true r h, attachPrimitive child false r h]

theorem primitive_fill_irrelevant_witness :
    AttachStep textChild true 7 = AttachStep textChild false 7 :=
  primitive_fill_irrelevant textChild 7 rfl

end AttachStepModel
